import Mathlib

/-!
Verification of `pscore_match/pscore.py` (class `PropensityScore`).

The module is a thin wrapper over an external maximum-likelihood binary
regression solver (statsmodels `Logit` / `Probit`).  We embed:

* the covariate table as a list of rows of rationals (one row per
  observation, as in the pandas `DataFrame` the code receives);
* the treatment vector as a list of rationals (the code performs no
  validation of the values, so we place no binarity restriction);
* the design-matrix helper `sm.add_constant(·, prepend=False)`;
* the constructor `PropensityScore.__init__` (shape assertion, storing
  both inputs) and the method `PropensityScore.compute`;
* the external solver as a parameter: it consumes the link choice, the
  response vector and the design matrix and yields fitted coefficients, a
  convergence flag and its per-iteration progress log.  The fitted model
  object then predicts on the training design matrix through the inverse
  link (logistic sigmoid, or the standard normal CDF for probit), which
  is the documented behaviour of `Logit.fit(...).predict()` /
  `Probit.fit(...).predict()`.
-/

namespace PscoreMatch

/-- The binomial link families the module dispatches between:
`'logistic'` selects the logit link, `'probit'` the probit link. -/
inductive Link where
  | logit
  | probit
deriving DecidableEq, Repr

/-- The two error kinds of the module: the constructor's shape assertion
(`AssertionError`, called `ShapeMismatch` in the specification) and the
`ValueError('Unrecognized method')` raised by `compute` (called
`UnrecognizedMethod`). -/
inductive PSError where
  | ShapeMismatch
  | UnrecognizedMethod
deriving DecidableEq, Repr

/-- Whether the table (a list of rows) already contains a nonzero
constant-valued column: some column index holds the same nonzero value in
every row.  Modelled from the spec: this is the check performed by the
external helper `statsmodels.add_constant` (pandas input routes through
`add_trend`, whose `safe_is_const` requires the column to have zero range
and values different from zero — an all-zero column does not count),
whose code is not part of this repository. -/
def hasConstantColumn (rows : List (List ℚ)) : Bool :=
  match rows with
  | [] => false
  | r :: rs => (List.range r.length).any fun j =>
      (rs.all fun s => s.getD j 0 == r.getD j 0) && !(r.getD j 0 == 0)

/-- Modelled from the spec: the external design-matrix helper
`sm.add_constant(data, prepend=False)` (statsmodels, not part of this
repository).  With its default `has_constant='skip'` it returns the data
unchanged when a nonzero constant-valued column is already present, and
otherwise — including when the only constant column is all zeros —
appends a column of ones after the existing columns (`prepend=False`). -/
def sm_add_constant (rows : List (List ℚ)) : List (List ℚ) :=
  if hasConstantColumn rows then rows else rows.map fun r => r ++ [1]

/-- The state of a `PropensityScore` object: the two inputs stored by the
constructor (`self.treatment`, `self.covariates`). -/
structure PropensityScore where
  treatment : List ℚ
  covariates : List (List ℚ)
deriving DecidableEq, Repr

/-- `PropensityScore.__init__`: asserts that the number of observations in
the treatment vector and in the covariate table agree, then stores both
inputs unchanged.  No other validation is performed. -/
def PropensityScore.init (treatment : List ℚ) (covariates : List (List ℚ)) :
    Except PSError PropensityScore :=
  if treatment.length = covariates.length then
    .ok ⟨treatment, covariates⟩
  else
    .error .ShapeMismatch

/-- The raw outcome of the external solver's optimisation: fitted
coefficients (one per design-matrix column, as real numbers), a
convergence flag, and the per-iteration progress lines the optimiser
would display. -/
structure RawFit where
  params : List ℝ
  converged : Bool
  iterationLog : List String

/-- Modelled from the spec: the external regression solver collaborator
(statsmodels `Logit` / `Probit`).  It receives the link selector, the
response vector and the design matrix, and produces a raw fit.  The
repository does not implement the solver, so it is a parameter of the
embedding. -/
structure Solver where
  run : Link → List ℚ → List (List ℚ) → RawFit

/-- Dot product of the fitted coefficients with one design-matrix row
(the linear predictor for that observation). -/
def dot (params : List ℝ) (row : List ℚ) : ℝ :=
  (List.zipWith (fun b x => b * (x : ℝ)) params row).sum

/-- The logistic sigmoid, the inverse link used by `Logit.predict`. -/
noncomputable def sigmoid (z : ℝ) : ℝ :=
  1 / (1 + Real.exp (-z))

/-- The standard normal cumulative distribution function, the inverse
link used by `Probit.predict`. -/
noncomputable def stdNormalCDF (z : ℝ) : ℝ :=
  ((ProbabilityTheory.gaussianReal 0 1) (Set.Iic z)).toReal

/-- The inverse link function of each family. -/
noncomputable def invLink : Link → ℝ → ℝ
  | .logit => sigmoid
  | .probit => stdNormalCDF

/-- The warning surfaced when the optimiser fails to converge
(statsmodels `ConvergenceWarning`, enabled by `warn_convergence=True`). -/
def convergenceWarning : String :=
  "ConvergenceWarning: maximum likelihood optimization failed to converge"

/-- The fitted-model object returned by `fit(disp=False,
warn_convergence=True)` together with its observable side channels: the
progress lines actually displayed and the warnings actually issued. -/
structure FittedModel where
  link : Link
  params : List ℝ
  exog : List (List ℚ)
  converged : Bool
  displayed : List String
  warnings : List String

/-- Modelled from the spec: `Model.fit(disp=disp,
warn_convergence=warnConv)` of the external solver.  `disp=False`
suppresses the per-iteration progress output; `warn_convergence=True`
turns non-convergence into a warning (never an exception), and the
partially-converged coefficients are kept in the result either way. -/
def fit (solver : Solver) (link : Link) (endog : List ℚ)
    (exog : List (List ℚ)) (disp warnConv : Bool) : FittedModel :=
  let raw := solver.run link endog exog
  { link := link
    params := raw.params
    exog := exog
    converged := raw.converged
    displayed := if disp then raw.iterationLog else []
    warnings := if warnConv && !raw.converged then [convergenceWarning] else [] }

/-- `model.predict()` with no argument: the fitted probabilities on the
training design matrix, one per row, in row order — the inverse link
applied to each row's linear predictor. -/
noncomputable def FittedModel.predict (m : FittedModel) : List ℝ :=
  m.exog.map fun row => invLink m.link (dot m.params row)

/-- The observable outcome of one successful `compute` call: the returned
score vector plus the side channels (warnings issued, progress lines
displayed). -/
structure ComputeResult where
  scores : List ℝ
  warnings : List String
  displayed : List String

/-- `PropensityScore.compute(method='logistic')`: builds the design
matrix with `sm.add_constant(self.covariates, prepend=False)`, dispatches
on the method string to the logit or probit solver (fitting with
`disp=False, warn_convergence=True`), raises
`ValueError('Unrecognized method')` for any other string, and returns
`model.predict()`. -/
noncomputable def PropensityScore.compute (self : PropensityScore) (solver : Solver)
    (method : String := "logistic") : Except PSError ComputeResult :=
  let predictors := sm_add_constant self.covariates
  if method = "logistic" then
    let model := fit solver .logit self.treatment predictors false true
    .ok ⟨model.predict, model.warnings, model.displayed⟩
  else if method = "probit" then
    let model := fit solver .probit self.treatment predictors false true
    .ok ⟨model.predict, model.warnings, model.displayed⟩
  else
    .error .UnrecognizedMethod

/-- State-passing form of `compute`: the method body reads `self` and
never assigns to it, so the post-state is returned explicitly alongside
the result.  Used to state the no-mutation and reusability properties. -/
noncomputable def PropensityScore.computeS (self : PropensityScore) (solver : Solver)
    (method : String := "logistic") :
    Except PSError ComputeResult × PropensityScore :=
  (self.compute solver method, self)

/-- A stub solver for concrete witnesses: returns the given coefficients
and convergence flag and a nonempty iteration log, whatever the input. -/
def stubSolver (params : List ℝ) (converged : Bool) : Solver :=
  ⟨fun _ _ _ => ⟨params, converged, ["iteration 1: f = 0.693"]⟩⟩

/-- A solver for concrete witnesses: converged empty fit on every input. -/
def constSolver : Solver :=
  ⟨fun _ _ _ => ⟨[], true, []⟩⟩

/-- A solver for concrete witnesses that behaves like `constSolver` on the
design matrix built from the covariate table `[[1], [2]]` and differently
everywhere else. -/
def spySolver : Solver :=
  ⟨fun _ _ exog =>
    if exog = [[1, 1], [2, 1]] then ⟨[], true, []⟩
    else ⟨[5], false, ["diverged"]⟩⟩

lemma sm_add_constant_length (rows : List (List ℚ)) :
    (sm_add_constant rows).length = rows.length := by
  unfold sm_add_constant
  split <;> simp

lemma sigmoid_nonneg (z : ℝ) : 0 ≤ sigmoid z := by
  have h := Real.exp_pos (-z)
  unfold sigmoid
  positivity

lemma sigmoid_le_one (z : ℝ) : sigmoid z ≤ 1 := by
  have h := Real.exp_pos (-z)
  rw [sigmoid, div_le_one (by linarith)]
  linarith

lemma stdNormalCDF_nonneg (z : ℝ) : 0 ≤ stdNormalCDF z :=
  ENNReal.toReal_nonneg

lemma stdNormalCDF_le_one (z : ℝ) : stdNormalCDF z ≤ 1 := by
  have h : (ProbabilityTheory.gaussianReal 0 1) (Set.Iic z) ≤ 1 :=
    MeasureTheory.prob_le_one
  calc ((ProbabilityTheory.gaussianReal 0 1) (Set.Iic z)).toReal
      ≤ (1 : ENNReal).toReal := ENNReal.toReal_mono ENNReal.one_ne_top h
    _ = 1 := by simp

lemma invLink_nonneg (l : Link) (z : ℝ) : 0 ≤ invLink l z := by
  cases l
  · exact sigmoid_nonneg z
  · exact stdNormalCDF_nonneg z

lemma invLink_le_one (l : Link) (z : ℝ) : invLink l z ≤ 1 := by
  cases l
  · exact sigmoid_le_one z
  · exact stdNormalCDF_le_one z

lemma compute_logistic_eq (solver : Solver) (ps : PropensityScore) :
    ps.compute solver "logistic" =
      .ok ⟨(fit solver .logit ps.treatment (sm_add_constant ps.covariates) false true).predict,
           (fit solver .logit ps.treatment (sm_add_constant ps.covariates) false true).warnings,
           (fit solver .logit ps.treatment (sm_add_constant ps.covariates) false true).displayed⟩ :=
  rfl

lemma compute_probit_eq (solver : Solver) (ps : PropensityScore) :
    ps.compute solver "probit" =
      .ok ⟨(fit solver .probit ps.treatment (sm_add_constant ps.covariates) false true).predict,
           (fit solver .probit ps.treatment (sm_add_constant ps.covariates) false true).warnings,
           (fit solver .probit ps.treatment (sm_add_constant ps.covariates) false true).displayed⟩ :=
  rfl

lemma compute_unrecognized (solver : Solver) (ps : PropensityScore) (method : String)
    (h1 : method ≠ "logistic") (h2 : method ≠ "probit") :
    ps.compute solver method = .error .UnrecognizedMethod := by
  simp only [PropensityScore.compute]
  rw [if_neg h1, if_neg h2]

/-- C2: construction with a treatment vector of length N and a covariate
table of M rows succeeds and stores both inputs exactly when N = M, and
fails with `ShapeMismatch` for every N ≠ M; no other validation is
performed, so arbitrary (in particular non-binary) treatment values are
accepted. -/
theorem init_shape_check (t : List ℚ) (cov : List (List ℚ)) :
    (t.length = cov.length → PropensityScore.init t cov = .ok ⟨t, cov⟩) ∧
    (t.length ≠ cov.length → PropensityScore.init t cov = .error .ShapeMismatch) := by
  constructor
  · intro h
    unfold PropensityScore.init
    rw [if_pos h]
  · intro h
    unfold PropensityScore.init
    rw [if_neg h]

/-- C2 witness: a non-binary treatment vector of matching length is
accepted and stored; a mismatched pair is rejected with
`ShapeMismatch`. -/
theorem init_shape_check_witness :
    PropensityScore.init [5, -3] [[1], [2]] = .ok ⟨[5, -3], [[1], [2]]⟩ ∧
    PropensityScore.init [0] [] = .error .ShapeMismatch :=
  ⟨(init_shape_check [5, -3] [[1], [2]]).1 rfl,
   (init_shape_check [0] []).2 (by decide)⟩

/-- C3: `compute` fails with `UnrecognizedMethod` for every method string
outside the two recognized values, and never with that error for
`"logistic"` or `"probit"` (those calls succeed). -/
theorem compute_method_validation (solver : Solver) (ps : PropensityScore) :
    (∀ method, method ≠ "logistic" → method ≠ "probit" →
        ps.compute solver method = .error .UnrecognizedMethod) ∧
    (∃ out, ps.compute solver "logistic" = .ok out) ∧
    (∃ out, ps.compute solver "probit" = .ok out) :=
  ⟨fun method h1 h2 => compute_unrecognized solver ps method h1 h2,
   ⟨_, compute_logistic_eq solver ps⟩,
   ⟨_, compute_probit_eq solver ps⟩⟩

/-- C3 witness: on a concrete estimator, `"linear"`, `""` and
`"LOGISTIC"` are rejected with `UnrecognizedMethod` while `"logistic"`
succeeds. -/
theorem compute_method_validation_witness :
    (PropensityScore.mk [0, 1] [[1], [2]]).compute constSolver "linear"
        = .error .UnrecognizedMethod ∧
    (PropensityScore.mk [0, 1] [[1], [2]]).compute constSolver ""
        = .error .UnrecognizedMethod ∧
    (PropensityScore.mk [0, 1] [[1], [2]]).compute constSolver "LOGISTIC"
        = .error .UnrecognizedMethod ∧
    ∃ out, (PropensityScore.mk [0, 1] [[1], [2]]).compute constSolver "logistic" = .ok out :=
  ⟨(compute_method_validation constSolver _).1 "linear" (by decide) (by decide),
   (compute_method_validation constSolver _).1 "" (by decide) (by decide),
   (compute_method_validation constSolver _).1 "LOGISTIC" (by decide) (by decide),
   (compute_method_validation constSolver _).2.1⟩

/-- C6: `compute` mutates neither the stored treatment vector nor the
stored covariate table — the post-state of a call equals the pre-state
for every method string, including strings rejected with
`UnrecognizedMethod`. -/
theorem compute_preserves_stored_inputs (solver : Solver) (ps : PropensityScore)
    (method : String) :
    (ps.computeS solver method).2.treatment = ps.treatment ∧
    (ps.computeS solver method).2.covariates = ps.covariates ∧
    (ps.computeS solver method).2 = ps :=
  ⟨rfl, rfl, rfl⟩

/-- C7: the estimator is deterministic and reusable — a second `compute`
call with the same method, made on the state left by a first call,
returns exactly the first result, and a call with any second method on
that state returns what a fresh call with that method would. -/
theorem compute_deterministic (solver : Solver) (ps : PropensityScore)
    (m1 m2 : String) :
    ((ps.computeS solver m1).2.computeS solver m1).1 = (ps.computeS solver m1).1 ∧
    ((ps.computeS solver m1).2.computeS solver m2).1 = (ps.computeS solver m2).1 :=
  ⟨rfl, rfl⟩

/-- C8: calling `compute` without a method argument is the same call as
`compute("logistic")`. -/
theorem compute_default_is_logistic (solver : Solver) (ps : PropensityScore) :
    ps.compute solver = ps.compute solver "logistic" :=
  rfl

/-- C10 counterexample: an all-zero column is constant-valued, yet the
design-matrix helper does not skip it — its skip check requires the
constant column to be nonzero — so on `[[0], [0]]` the ones column is
still appended and the design matrix does not equal the covariate table
unchanged. -/
theorem add_constant_appends_on_zero_constant :
    sm_add_constant [[(0 : ℚ)], [0]] = [[(0 : ℚ), 1], [0, 1]] ∧
    sm_add_constant [[(0 : ℚ)], [0]] ≠ [[(0 : ℚ)], [0]] := by
  constructor <;> decide

/-- C10 (amended): when the covariate table already contains a nonzero
constant-valued column, the design-matrix helper (default
`has_constant='skip'`) appends nothing: the design matrix equals the
covariate table unchanged, and that unchanged table is what `compute`
fits the solver on. -/
theorem add_constant_skips_existing_constant (cov : List (List ℚ))
    (h : hasConstantColumn cov = true) :
    sm_add_constant cov = cov ∧
    ∀ (t : List ℚ) (solver : Solver),
      (PropensityScore.mk t cov).compute solver "logistic" =
        .ok ⟨(fit solver .logit t cov false true).predict,
             (fit solver .logit t cov false true).warnings,
             (fit solver .logit t cov false true).displayed⟩ := by
  have hskip : sm_add_constant cov = cov := by
    unfold sm_add_constant
    rw [if_pos h]
  refine ⟨hskip, fun t solver => ?_⟩
  rw [compute_logistic_eq]
  rw [show (PropensityScore.mk t cov).covariates = cov from rfl, hskip]

/-- C10 witness: a table whose first column is constant passes through
the design-matrix helper unchanged and is fitted as-is. -/
theorem add_constant_skips_existing_constant_witness :
    sm_add_constant [[(2 : ℚ), 5], [2, 6]] = [[(2 : ℚ), 5], [2, 6]] ∧
    (PropensityScore.mk [0, 1] [[(2 : ℚ), 5], [2, 6]]).compute constSolver "logistic" =
      .ok ⟨(fit constSolver .logit [0, 1] [[(2 : ℚ), 5], [2, 6]] false true).predict,
           (fit constSolver .logit [0, 1] [[(2 : ℚ), 5], [2, 6]] false true).warnings,
           (fit constSolver .logit [0, 1] [[(2 : ℚ), 5], [2, 6]] false true).displayed⟩ :=
  ⟨(add_constant_skips_existing_constant [[(2 : ℚ), 5], [2, 6]] (by decide)).1,
   (add_constant_skips_existing_constant [[(2 : ℚ), 5], [2, 6]] (by decide)).2 [0, 1] constSolver⟩

/-- C1: for an estimator constructed from inputs with equal row counts
and a recognized method, the returned score vector has exactly as many
entries as the treatment vector, and its entries are, in order, the
per-row predictions on the design matrix (one per design-matrix row, in
the original row order). -/
theorem compute_result_length_eq_treatment
    (solver : Solver) (t : List ℚ) (cov : List (List ℚ)) (ps : PropensityScore)
    (hinit : PropensityScore.init t cov = .ok ps)
    (method : String) (hm : method = "logistic" ∨ method = "probit")
    (out : ComputeResult) (hout : ps.compute solver method = .ok out) :
    out.scores.length = t.length ∧
    ∃ f : List ℚ → ℝ, out.scores = (sm_add_constant cov).map f := by
  unfold PropensityScore.init at hinit
  by_cases hlen : t.length = cov.length
  · rw [if_pos hlen] at hinit
    injection hinit with hps
    subst hps
    rcases hm with rfl | rfl
    · rw [compute_logistic_eq] at hout
      injection hout with hret
      subst hret
      constructor
      · simp [FittedModel.predict, fit, sm_add_constant_length, hlen]
      · exact ⟨_, rfl⟩
    · rw [compute_probit_eq] at hout
      injection hout with hret
      subst hret
      constructor
      · simp [FittedModel.predict, fit, sm_add_constant_length, hlen]
      · exact ⟨_, rfl⟩
  · rw [if_neg hlen] at hinit
    exact (Except.noConfusion hinit)

/-- C1 witness: on a concrete estimator with two observations, the
logistic score vector has two entries, one per design-matrix row. -/
theorem compute_result_length_eq_treatment_witness :
    ((sm_add_constant [[(1 : ℚ)], [2]]).map fun row =>
        invLink .logit (dot [] row)).length = ([0, 1] : List ℚ).length ∧
    ∃ f : List ℚ → ℝ,
      ((sm_add_constant [[(1 : ℚ)], [2]]).map fun row => invLink .logit (dot [] row))
        = (sm_add_constant [[(1 : ℚ)], [2]]).map f :=
  compute_result_length_eq_treatment constSolver [0, 1] [[1], [2]]
    ⟨[0, 1], [[1], [2]]⟩ rfl "logistic" (Or.inl rfl)
    ⟨(sm_add_constant [[(1 : ℚ)], [2]]).map fun row => invLink .logit (dot [] row), [], []⟩
    rfl

/-- C4 counterexample: on the covariate table `[[1], [1]]`, which already
contains a constant-valued column, the design-matrix helper appends no
column at all — the design matrix is not the table with a column of ones
appended after the existing column. -/
theorem add_constant_not_always_appending :
    sm_add_constant [[(1 : ℚ)], [1]] = [[(1 : ℚ)], [1]] ∧
    sm_add_constant [[(1 : ℚ)], [1]] ≠ [[(1 : ℚ), 1], [1, 1]] := by
  constructor <;> decide

/-- C4 (amended): when the covariate table contains no nonzero
constant-valued column, the design matrix is the table with one constant
column of ones appended after all existing columns (when it does contain
one, the table is passed through unchanged — `has_constant='skip'`); and
`compute` depends on the solver only through its value at the treatment
vector and that design matrix, i.e. exactly these are passed to the
regression solver. -/
theorem compute_design_matrix_spec (solver : Solver) (ps : PropensityScore) :
    (hasConstantColumn ps.covariates = false →
      sm_add_constant ps.covariates = ps.covariates.map fun r => r ++ [1]) ∧
    (∀ s2 : Solver,
      (∀ link, s2.run link ps.treatment (sm_add_constant ps.covariates)
          = solver.run link ps.treatment (sm_add_constant ps.covariates)) →
      ∀ method, ps.compute s2 method = ps.compute solver method) := by
  constructor
  · intro h
    unfold sm_add_constant
    rw [if_neg (by simp [h])]
  · intro s2 hagree method
    simp only [PropensityScore.compute, fit, hagree]

/-- C4 witness: a table without a constant column gets the column of
ones appended after its column, and two solvers that agree on that
design matrix yield identical `compute` results. -/
theorem compute_design_matrix_spec_witness :
    sm_add_constant [[(1 : ℚ)], [2]] = [[(1 : ℚ), 1], [2, 1]] ∧
    (PropensityScore.mk [0, 1] [[1], [2]]).compute spySolver "logistic"
      = (PropensityScore.mk [0, 1] [[1], [2]]).compute constSolver "logistic" :=
  ⟨(compute_design_matrix_spec constSolver (PropensityScore.mk [0, 1] [[1], [2]])).1 (by decide),
   (compute_design_matrix_spec constSolver (PropensityScore.mk [0, 1] [[1], [2]])).2
     spySolver (fun _ => rfl) "logistic"⟩

/-- C5: for every recognized method, every entry of the returned score
vector lies in the closed interval from 0 to 1. -/
theorem compute_scores_in_unit_interval (solver : Solver) (ps : PropensityScore)
    (method : String) (hm : method = "logistic" ∨ method = "probit")
    (out : ComputeResult) (hout : ps.compute solver method = .ok out) :
    ∀ x ∈ out.scores, 0 ≤ x ∧ x ≤ 1 := by
  have hscores : ∃ (l : Link) (params : List ℝ),
      out.scores = (sm_add_constant ps.covariates).map fun row =>
        invLink l (dot params row) := by
    rcases hm with rfl | rfl
    · rw [compute_logistic_eq] at hout
      injection hout with hret
      subst hret
      exact ⟨.logit, _, rfl⟩
    · rw [compute_probit_eq] at hout
      injection hout with hret
      subst hret
      exact ⟨.probit, _, rfl⟩
  obtain ⟨l, params, hs⟩ := hscores
  intro x hx
  rw [hs] at hx
  simp only [List.mem_map] at hx
  obtain ⟨row, _, rfl⟩ := hx
  exact ⟨invLink_nonneg _ _, invLink_le_one _ _⟩

/-- C5 witness: on a concrete estimator, the first entry of the logistic
score vector lies between 0 and 1. -/
theorem compute_scores_in_unit_interval_witness :
    0 ≤ invLink .logit (dot [] [1, 1]) ∧ invLink .logit (dot [] [1, 1]) ≤ 1 :=
  compute_scores_in_unit_interval constSolver ⟨[0, 1], [[1], [2]]⟩
    "logistic" (Or.inl rfl)
    ⟨(sm_add_constant [[(1 : ℚ)], [2]]).map fun row => invLink .logit (dot [] row), [], []⟩
    rfl (invLink .logit (dot [] [1, 1]))
    (by
      have hd : sm_add_constant [[(1 : ℚ)], [2]] = [[(1 : ℚ), 1], [2, 1]] := by decide
      rw [hd]
      simp)

/-- C9: when the solver fails to converge, `compute` still succeeds: it
raises no error, surfaces exactly the convergence warning, displays no
per-iteration progress (`disp=False`), and returns the full-length score
vector computed from the partially-converged coefficients. -/
theorem compute_nonconvergence_is_warning (solver : Solver) (ps : PropensityScore)
    (link : Link) (method : String)
    (hm : (method = "logistic" ∧ link = .logit) ∨ (method = "probit" ∧ link = .probit))
    (hlen : ps.treatment.length = ps.covariates.length)
    (hconv : (solver.run link ps.treatment (sm_add_constant ps.covariates)).converged = false) :
    ∃ out, ps.compute solver method = .ok out ∧
      out.warnings = [convergenceWarning] ∧
      out.displayed = [] ∧
      out.scores = ((sm_add_constant ps.covariates).map fun row =>
        invLink link (dot (solver.run link ps.treatment (sm_add_constant ps.covariates)).params row)) ∧
      out.scores.length = ps.treatment.length := by
  rcases hm with ⟨rfl, rfl⟩ | ⟨rfl, rfl⟩
  · refine ⟨_, compute_logistic_eq solver ps, ?_, rfl, rfl, ?_⟩
    · simp [fit, hconv]
    · simp [FittedModel.predict, fit, sm_add_constant_length, hlen]
  · refine ⟨_, compute_probit_eq solver ps, ?_, rfl, rfl, ?_⟩
    · simp [fit, hconv]
    · simp [FittedModel.predict, fit, sm_add_constant_length, hlen]

/-- C9 witness: a solver that reports non-convergence on a concrete
estimator still yields a successful call with exactly the convergence
warning, no progress output, and a length-2 score vector. -/
theorem compute_nonconvergence_is_warning_witness :
    ∃ out, (PropensityScore.mk [0, 1] [[1], [2]]).compute (stubSolver [] false) "logistic"
        = .ok out ∧
      out.warnings = [convergenceWarning] ∧
      out.displayed = [] ∧
      out.scores = ((sm_add_constant [[(1 : ℚ)], [2]]).map fun row =>
        invLink .logit (dot ((stubSolver [] false).run .logit [0, 1]
          (sm_add_constant [[(1 : ℚ)], [2]])).params row)) ∧
      out.scores.length = ([0, 1] : List ℚ).length :=
  compute_nonconvergence_is_warning (stubSolver [] false)
    (PropensityScore.mk [0, 1] [[1], [2]]) .logit "logistic"
    (Or.inl ⟨rfl, rfl⟩) rfl rfl

end PscoreMatch
